import Mathlib

/-!
Shallow embedding of the transaction/bridge operations of
`metronome-wallet-core`:

* `src/plugins/metronome/token-api.js` — `estimateExportMetGas`,
  `estimateImportMetGas`, `sendMet`, `exportMet`, `importMet`;
* `src/plugins/qtum-wallet/index.js` — the UTXO-chain `sendCoin`.

Scalar JavaScript values are modelled by `JsVal`; a positional argument
of a contract call, which may be an array of scalars, by `Arg`; promises
by `Except String`; the network collaborators (`web3`, the Auctions
contract, the porter fee API, the metronome SDK) by an `Env` of oracles.
Each operation also returns the ordered list of network/broadcast
`Event`s it performs, so that read-before-write and abort-before-sign
properties can be stated.  The JavaScript identifiers `from` and `to`
are reserved tokens in Lean and appear as `fromAddr` and `toAddr`.
-/

namespace MetronomeWalletCore

/-- A scalar JavaScript value, as far as this code distinguishes them:
`undefined`, `NaN`, integral numbers and strings. -/
inductive JsVal where
  | undef : JsVal
  | nan : JsVal
  | num : Int → JsVal
  | str : String → JsVal
deriving Repr, DecidableEq

/-- JavaScript truthiness of a `JsVal` (`undefined`, `NaN`, `0` and the
empty string are falsy). -/
def truthy : JsVal → Bool
  | .undef => false
  | .nan => false
  | .num n => n ≠ 0
  | .str s => s ≠ ""

/-- JavaScript `a || b`. -/
def jsOr (a b : JsVal) : JsVal := if truthy a then a else b

/-- One positional argument of a contract call: a scalar or an array of
scalars (the shapes `token-api.js` passes). -/
inductive Arg where
  | val : JsVal → Arg
  | list : List JsVal → Arg
deriving Repr, DecidableEq

/-- Is `c` a hexadecimal digit character? -/
def isHexDigitChar (c : Char) : Bool :=
  c.isDigit || ('a' ≤ c && c ≤ 'f') || ('A' ≤ c && c ≤ 'F')

/-- Character-list core of `isHexStrict`: `0x`/`0X` followed by hex
digits only. -/
def isHexStrictChars : List Char → Bool
  | '0' :: 'x' :: rest => rest.all isHexDigitChar
  | '0' :: 'X' :: rest => rest.all isHexDigitChar
  | _ => false

/-- `web3-utils` `isHexStrict`: an optional minus sign, then `0x` and hex
digits. -/
def isHexStrict (s : String) : Bool :=
  match s.toList with
  | '-' :: rest => isHexStrictChars rest
  | cs => isHexStrictChars cs

/-- The lowercase hex digit character for `n % 16`. -/
def hexDigitChar (n : Nat) : Char :=
  if n % 16 < 10 then Char.ofNat (48 + n % 16) else Char.ofNat (87 + n % 16)

/-- Two lowercase hex digit characters for a byte. -/
def byteToHexChars (n : Nat) : List Char :=
  [hexDigitChar ((n / 16) % 16), hexDigitChar (n % 16)]

/-- `web3-utils` `utf8ToHex`, modelled for ASCII strings (each character
becomes one byte, two lowercase hex digits). -/
def utf8ToHex (s : String) : String :=
  "0x" ++ String.mk (s.toList.foldr (fun c acc => byteToHexChars (c.toNat % 256) ++ acc) [])

/-- `web3-utils` `numberToHex` for an integral number. -/
def numberToHex (n : Int) : String :=
  if n < 0 then "-0x" ++ String.mk (Nat.toDigits 16 n.natAbs)
  else "0x" ++ String.mk (Nat.toDigits 16 n.natAbs)

/-- Modelled from the `web3-utils` `toHex` dependency (not part of this
repository) for the inputs the repository passes to it: hex-prefixed
strings are returned unchanged, every other string is hex-encoded from
its (ASCII) character bytes, a number is hex-encoded as a number, and
`undefined`/`NaN` pass through untouched. -/
def toHexJs : JsVal → JsVal
  | .str s => if isHexStrict s then .str s else .str (utf8ToHex s)
  | .num n => .str (numberToHex n)
  | v => v

/-- Is `c` a decimal digit (`'0'`–`'9'`, code points 48–57)? -/
def isDecDigit (c : Char) : Bool := 48 ≤ c.toNat && c.toNat ≤ 57

/-- The numeric value of a digit character in the given base, if any
(`parseInt` accepts decimal digits and, below the base, the letters
`a`–`f`/`A`–`F`, code points 97–102 and 65–70). -/
def digitValue (base : Nat) (c : Char) : Option Nat :=
  let v : Option Nat :=
    if isDecDigit c then some (c.toNat - 48)
    else if 97 ≤ c.toNat && c.toNat ≤ 102 then some (c.toNat - 87)
    else if 65 ≤ c.toNat && c.toNat ≤ 70 then some (c.toNat - 55)
    else none
  match v with
  | some d => if d < base then some d else none
  | none => none

/-- The longest prefix of digit values in the given base. -/
def takeDigits (base : Nat) : List Char → List Nat
  | [] => []
  | c :: cs =>
    match digitValue base c with
    | some d => d :: takeDigits base cs
    | none => []

/-- Fold a digit list into a number; an empty digit list is `NaN`. -/
def digitsToNum (base : Nat) (ds : List Nat) : JsVal :=
  if ds.isEmpty then .nan else .num (ds.foldl (fun a d => a * base + d) 0)

/-- Unsigned core of `Number.parseInt`: a `0x`/`0X` prefix switches to
base 16, otherwise the longest decimal-digit prefix is taken. -/
def parseIntCore (cs : List Char) : JsVal :=
  match cs with
  | c0 :: c1 :: rest =>
    if c0 = '0' && (c1 = 'x' || c1 = 'X') then digitsToNum 16 (takeDigits 16 rest)
    else digitsToNum 10 (takeDigits 10 cs)
  | _ => digitsToNum 10 (takeDigits 10 cs)

/-- Negate a parsed number; `NaN` stays `NaN`. -/
def jsNeg : JsVal → JsVal
  | .num n => .num (-n)
  | _ => .nan

/-- Signed `Number.parseInt` core: an optional leading sign. -/
def parseIntSigned (cs : List Char) : JsVal :=
  match cs with
  | c :: rest =>
    if c = '-' then jsNeg (parseIntCore rest)
    else if c = '+' then parseIntCore rest
    else parseIntCore cs
  | [] => parseIntCore cs

/-- `Number.parseInt` on a string: leading whitespace is skipped, then an
optional sign and the longest digit prefix; no digits means `NaN`. -/
def parseIntString (s : String) : JsVal :=
  parseIntSigned (s.toList.dropWhile Char.isWhitespace)

/-- `Number.parseInt` on a `JsVal`, for the value shapes `sendCoin` can
receive: strings are parsed, an (integral) number stringifies and
re-parses to itself, and `undefined`/`NaN` parse to `NaN`. -/
def parseIntJs : JsVal → JsVal
  | .str s => parseIntString s
  | .num n => .num n
  | _ => .nan

/-- The options object of a signed contract-method `.send`:
`{ from, gasPrice, gas, nonce }`. -/
structure SendOpts where
  fromAddr : JsVal
  gasPrice : JsVal
  gas : JsVal
  nonce : JsVal
deriving Repr, DecidableEq

/-- A signed contract-method call: method name, positional argument list
and send options. -/
structure ContractSend where
  method : String
  args : List Arg
  opts : SendOpts
deriving Repr, DecidableEq

/-- A broadcast handle: a signed contract send, the SDK `sendMet` call,
the qtum wallet `send`, or a handle wrapped by `toPromiEvent`. -/
inductive Handle where
  | contractSend : ContractSend → Handle
  | metSendMet : (toAddr value fromAddr gasPrice gas : JsVal) → Handle
  | qtumSend : (toAddr amount feeRate : JsVal) → Handle
  | promiEvent : Handle → Handle
deriving Repr, DecidableEq

/-- `returnValues` of the meta template handed to `metaParsers.transfer`
by `sendMet`. -/
structure TransferReturnValues where
  _from : JsVal
  _to : JsVal
  _value : JsVal
deriving Repr, DecidableEq

/-- Argument of `metaParsers.transfer`: `{ address, returnValues }`. -/
structure TransferMetaArg where
  address : JsVal
  returnValues : TransferReturnValues
deriving Repr, DecidableEq

/-- `returnValues` of the meta template handed to `metaParsers.export`
by `exportMet`: exactly these four fields. -/
structure ExportReturnValues where
  amountToBurn : JsVal
  destinationChain : JsVal
  destinationRecipientAddr : JsVal
  fee : JsVal
deriving Repr, DecidableEq

/-- Argument of `metaParsers.export`: `{ address, returnValues }`. -/
structure ExportMetaArg where
  address : JsVal
  returnValues : ExportReturnValues
deriving Repr, DecidableEq

/-- `returnValues` of the meta template handed to
`metaParsers.importRequest` by `importMet`: exactly these five fields. -/
structure ImportReturnValues where
  amountToImport : JsVal
  currentBurnHash : JsVal
  fee : JsVal
  originChain : JsVal
  destinationRecipientAddr : JsVal
deriving Repr, DecidableEq

/-- Argument of `metaParsers.importRequest`: `{ returnValues }` (no
`address` field is passed). -/
structure ImportRequestMetaArg where
  returnValues : ImportReturnValues
deriving Repr, DecidableEq

/-- The injected `metaParsers` collaborator.  The JavaScript field named
`export` is called `exportMeta` here because `export` is a Lean keyword.
Meta templates are opaque values produced by these functions. -/
structure MetaParsers where
  transfer : TransferMetaArg → JsVal
  exportMeta : ExportMetaArg → JsVal
  importRequest : ImportRequestMetaArg → JsVal

/-- The network collaborators an operation can consult, each as the
outcome (`Except`) its promise settles with:
`web3.eth.getTransactionCount(from, 'pending')`,
`Auctions.methods.genesisTime().call()`,
`Auctions.methods.dailyAuctionStartTime().call()`,
`getExportMetFee(web3, chain)({ value })` and
`met.getContracts()` (only the `METToken.options.address` it yields). -/
structure Env where
  transactionCount : JsVal → Except String JsVal
  genesisTime : Except String JsVal
  dailyAuctionStartTime : Except String JsVal
  exportMetFee : JsVal → Except String JsVal
  metTokenAddress : Except String JsVal

/-- One network or broadcast action, in the order the operation performs
them.  `signAndSend` covers constructing, signing and broadcasting the
transaction (the `.send` call). -/
inductive Event where
  | fetchNonce : JsVal → Event
  | readGenesisTime : Event
  | readDailyAuctionStartTime : Event
  | fetchExportMetFee : JsVal → Event
  | getContracts : Event
  | signAndSend : Handle → Event
deriving Repr, DecidableEq

/-- Is this event a construct-sign-broadcast action? -/
def Event.isSend : Event → Bool
  | .signAndSend _ => true
  | _ => false

/-- The contract sends appearing in a trace, in order. -/
def sentCalls (evs : List Event) : List ContractSend :=
  evs.filterMap fun e =>
    match e with
    | .signAndSend (.contractSend c) => some c
    | _ => none

/-- Parameters of `exportMet` (and, ignoring `gas`/`gasPrice`, of
`estimateExportMetGas`, which destructures the same fields minus those
two from the params object).  An absent field is `JsVal.undef`. -/
structure ExportMetParams where
  destinationChain : JsVal
  destinationMetAddress : JsVal
  extraData : JsVal
  fee : JsVal
  fromAddr : JsVal
  gas : JsVal
  gasPrice : JsVal
  toAddr : JsVal
  value : JsVal
deriving Repr, DecidableEq

/-- Parameters of `importMet` (and, ignoring `gas`/`gasPrice`, of
`estimateImportMetGas`). -/
structure ImportMetParams where
  blockTimestamp : JsVal
  burnSequence : JsVal
  currentBurnHash : JsVal
  currentTick : JsVal
  dailyMintable : JsVal
  destinationChain : JsVal
  destinationMetAddress : JsVal
  extraData : JsVal
  fee : JsVal
  fromAddr : JsVal
  gas : JsVal
  gasPrice : JsVal
  originChain : JsVal
  previousBurnHash : JsVal
  supply : JsVal
  root : JsVal
  value : JsVal
deriving Repr, DecidableEq

/-- Parameters of `sendMet`. -/
structure SendMetParams where
  gasPrice : JsVal
  gas : JsVal
  fromAddr : JsVal
  toAddr : JsVal
  value : JsVal
deriving Repr, DecidableEq

/-- The SDK call built by `estimateExportMetGas`:
`met.estimateExportMetGas({ destChain, destMetronomeAddr }, to || from,
value, fee, extraData, { from })`.  The second positional argument is
called `recipient` here. -/
structure EstimateExportMetGasCall where
  destChain : JsVal
  destMetronomeAddr : JsVal
  recipient : JsVal
  value : JsVal
  fee : JsVal
  extraData : JsVal
  fromAddr : JsVal
deriving Repr, DecidableEq

/-- `estimateExportMetGas` from `token-api.js` (lines 9–33): a pure
construction of the SDK gas-estimate request; the network round trip
itself happens inside the `metronome-sdk` collaborator. -/
def estimateExportMetGas (params : ExportMetParams) : EstimateExportMetGasCall :=
  { destChain := params.destinationChain
    destMetronomeAddr := params.destinationMetAddress
    recipient := jsOr params.toAddr params.fromAddr
    value := params.value
    fee := params.fee
    extraData := params.extraData
    fromAddr := params.fromAddr }

/-- The flat argument sequence of the export gas-estimate request, in
the order the named parameters are passed. -/
def estimateExportMetGasSeq (c : EstimateExportMetGasCall) : List JsVal :=
  [c.destChain, c.destMetronomeAddr, c.recipient, c.value, c.fee, c.extraData]

/-- A read-only `.estimateGas({ from })` contract request: method name,
positional argument list and the `from` option. -/
structure GasEstimateCall where
  method : String
  args : List Arg
  fromAddr : JsVal
deriving Repr, DecidableEq

/-- `estimateImportMetGas` from `token-api.js` (lines 35–82): reads
`genesisTime` and `dailyAuctionStartTime` from the Auctions contract,
then builds the read-only `importMET(...).estimateGas({ from })`
request.  If either read rejects, the whole call rejects. -/
def estimateImportMetGas (env : Env) (params : ImportMetParams) :
    Except String GasEstimateCall × List Event :=
  let events := [Event.readGenesisTime, Event.readDailyAuctionStartTime]
  match env.genesisTime, env.dailyAuctionStartTime with
  | .ok genesisTime, .ok dailyAuctionStartTime =>
    (.ok
      { method := "importMET"
        args :=
          [ .val (toHexJs params.originChain),
            .val (toHexJs params.destinationChain),
            .list [params.destinationMetAddress, params.fromAddr],
            .val params.extraData,
            .list [params.previousBurnHash, params.currentBurnHash],
            .val params.supply,
            .list [params.blockTimestamp, params.value, params.fee, params.currentTick,
                   genesisTime, params.dailyMintable, params.burnSequence,
                   dailyAuctionStartTime],
            .val params.root ]
        fromAddr := params.fromAddr }, events)
  | .error e, _ => (.error e, events)
  | _, .error e => (.error e, events)

/-- `sendMet` from `token-api.js` (lines 93–108): resolves the METToken
contract through the SDK, then hands the `met.sendMet(to, value,
{ from, gasPrice, gas })` handle to `logTransaction` together with the
`metaParsers.transfer` template. -/
def sendMet (env : Env) (logTransaction : Handle → JsVal → JsVal → Handle)
    (metaParsers : MetaParsers) (privateKey : JsVal) (params : SendMetParams) :
    Except String Handle × List Event :=
  match env.metTokenAddress with
  | .ok addr =>
    let h := Handle.metSendMet params.toAddr params.value params.fromAddr
      params.gasPrice params.gas
    (.ok (logTransaction h params.fromAddr
        (metaParsers.transfer
          { address := addr
            returnValues :=
              { _from := params.fromAddr, _to := params.toAddr,
                _value := params.value } })),
      [Event.getContracts, Event.signAndSend h])
  | .error e => (.error e, [Event.getContracts])

/-- `exportMet` from `token-api.js` (lines 110–153): in parallel,
fetches the pending nonce of `from` and — when the caller-supplied fee
is falsy — the estimated export fee for `value`; then signs and sends
`METToken.methods.export(toHex(destinationChain), destinationMetAddress,
to || from, value, actualFee, extraData)` with `{ from, gasPrice, gas,
nonce }` and routes the handle through `logTransaction` with the
`metaParsers.export` template. -/
def exportMet (env : Env) (logTransaction : Handle → JsVal → JsVal → Handle)
    (metaParsers : MetaParsers) (privateKey : JsVal) (params : ExportMetParams) :
    Except String Handle × List Event :=
  let feeRes : Except String JsVal :=
    if truthy params.fee then .ok params.fee else env.exportMetFee params.value
  let events :=
    Event.fetchNonce params.fromAddr ::
      (if truthy params.fee then [] else [Event.fetchExportMetFee params.value])
  match env.transactionCount params.fromAddr, feeRes with
  | .ok nonce, .ok actualFee =>
    let h := Handle.contractSend
      { method := "export"
        args :=
          [ .val (toHexJs params.destinationChain),
            .val params.destinationMetAddress,
            .val (jsOr params.toAddr params.fromAddr),
            .val params.value,
            .val actualFee,
            .val params.extraData ]
        opts :=
          { fromAddr := params.fromAddr, gasPrice := params.gasPrice,
            gas := params.gas, nonce := nonce } }
    (.ok (logTransaction h params.fromAddr
        (metaParsers.exportMeta
          { address := params.fromAddr
            returnValues :=
              { amountToBurn := params.value
                destinationChain := toHexJs params.destinationChain
                destinationRecipientAddr := jsOr params.toAddr params.fromAddr
                fee := actualFee } })),
      events ++ [Event.signAndSend h])
  | .error e, _ => (.error e, events)
  | _, .error e => (.error e, events)

/-- `importMet` from `token-api.js` (lines 155–219): in parallel,
fetches the pending nonce of `from` and reads `genesisTime` and
`dailyAuctionStartTime` from the destination chain's Auctions contract;
only if all three resolve does it construct, sign and send the
`importMET` call and route the handle through `logTransaction` with the
`metaParsers.importRequest` template.  If any of the three rejects, the
call rejects with no transaction constructed. -/
def importMet (env : Env) (logTransaction : Handle → JsVal → JsVal → Handle)
    (metaParsers : MetaParsers) (privateKey : JsVal) (params : ImportMetParams) :
    Except String Handle × List Event :=
  let events :=
    [Event.fetchNonce params.fromAddr, Event.readGenesisTime,
     Event.readDailyAuctionStartTime]
  match env.transactionCount params.fromAddr, env.genesisTime, env.dailyAuctionStartTime with
  | .ok nonce, .ok genesisTime, .ok dailyAuctionStartTime =>
    let h := Handle.contractSend
      { method := "importMET"
        args :=
          [ .val (toHexJs params.originChain),
            .val (toHexJs params.destinationChain),
            .list [params.destinationMetAddress, params.fromAddr],
            .val params.extraData,
            .list [params.previousBurnHash, params.currentBurnHash],
            .val params.supply,
            .list [params.blockTimestamp, params.value, params.fee, params.currentTick,
                   genesisTime, params.dailyMintable, params.burnSequence,
                   dailyAuctionStartTime],
            .val params.root ]
        opts :=
          { fromAddr := params.fromAddr, gasPrice := params.gasPrice,
            gas := params.gas, nonce := nonce } }
    (.ok (logTransaction h params.fromAddr
        (metaParsers.importRequest
          { returnValues :=
              { amountToImport := params.value
                currentBurnHash := params.currentBurnHash
                fee := params.fee
                originChain := toHexJs params.originChain
                destinationRecipientAddr := params.fromAddr } })),
      events ++ [Event.signAndSend h])
  | .error e, _, _ => (.error e, events)
  | _, .error e, _ => (.error e, events)
  | _, _, .error e => (.error e, events)

/-- Parameters of the qtum-wallet `sendCoin`.  `feeRate` is `JsVal.undef`
when the caller leaves it unspecified, which is when the JavaScript
default parameter `feeRate = 402` applies. -/
structure SendCoinParams where
  fromAddr : JsVal
  toAddr : JsVal
  value : JsVal
  feeRate : JsVal
deriving Repr, DecidableEq

/-- `sendCoin` from `qtum-wallet/index.js` (lines 35–42): builds
`wallet.send(to, Number.parseInt(value), { feeRate })` with the default
`feeRate = 402` when the caller left it undefined, wraps the promise
with `toPromiEvent`, and returns
`plugins.transactionsList.logTransaction(promiEvent, from)` — no meta
template argument is passed (modelled as `JsVal.undef`). -/
def sendCoin (logTransaction : Handle → JsVal → JsVal → Handle)
    (privateKey : JsVal) (params : SendCoinParams) : Handle :=
  let feeRate := if params.feeRate = JsVal.undef then JsVal.num 402 else params.feeRate
  let sendPromise := Handle.qtumSend params.toAddr (parseIntJs params.value) feeRate
  let promiEvent := Handle.promiEvent sendPromise
  logTransaction promiEvent params.fromAddr JsVal.undef

/-- The first positional argument list sent in a trace, if any. -/
def firstSentArgs (evs : List Event) : Option (List Arg) :=
  (sentCalls evs).head?.map ContractSend.args

/-- A sample environment in which every collaborator read succeeds. -/
def sampleEnv : Env :=
  { transactionCount := fun _ => .ok (.num 7)
    genesisTime := .ok (.num 1000)
    dailyAuctionStartTime := .ok (.num 2000)
    exportMetFee := fun _ => .ok (.num 3)
    metTokenAddress := .ok (.str "0x1234") }

/-- A sample environment whose destination-chain context read rejects. -/
def failEnv : Env :=
  { sampleEnv with genesisTime := .error "context fetch failed" }

/-- The identity tracker decorator (`logTransaction` is a pass-through). -/
def idLog : Handle → JsVal → JsVal → Handle := fun h _ _ => h

/-- Sample meta parsers producing opaque tags. -/
def sampleParsers : MetaParsers :=
  { transfer := fun _ => .str "transfer-meta"
    exportMeta := fun _ => .str "export-meta"
    importRequest := fun _ => .str "import-request-meta" }

/-- A sample private key. -/
def samplePk : JsVal := .str "0xkey"

/-- Sample `importMet` parameters; note the non-hex origin chain name. -/
def sampleImportParams : ImportMetParams :=
  { blockTimestamp := .num 1500000000
    burnSequence := .num 5
    currentBurnHash := .str "0xcafe"
    currentTick := .num 12
    dailyMintable := .num 2880
    destinationChain := .str "0x455443"
    destinationMetAddress := .str "0x00aa"
    extraData := .str "0x00"
    fee := .num 2
    fromAddr := .str "0x11bb"
    gas := .num 200000
    gasPrice := .num 10
    originChain := .str "ETH"
    previousBurnHash := .str "0xbeef"
    supply := .num 100
    root := .str "0xabc0"
    value := .num 50 }

/-- Sample `exportMet` parameters with a truthy caller-supplied fee and a
non-hex destination chain name. -/
def sampleExportParams : ExportMetParams :=
  { destinationChain := .str "ETH"
    destinationMetAddress := .str "0x00aa"
    extraData := .str "0x00"
    fee := .num 1
    fromAddr := .str "0x11bb"
    gas := .num 100000
    gasPrice := .num 10
    toAddr := .str "0x22cc"
    value := .num 1000 }

/-- Sample `exportMet` parameters with `fee = 0` (falsy). -/
def sampleExportParamsNoFee : ExportMetParams :=
  { sampleExportParams with fee := .num 0 }

/-- Sample `sendMet` parameters. -/
def sampleSendMetParams : SendMetParams :=
  { gasPrice := .num 10, gas := .num 50000, fromAddr := .str "0x11bb",
    toAddr := .str "0x22cc", value := .num 25 }

/-- Sample qtum `sendCoin` parameters with no `feeRate` given. -/
def sampleSendCoinParams : SendCoinParams :=
  { fromAddr := .str "qFrom", toAddr := .str "qTo", value := .str "10.5",
    feeRate := .undef }

/-- C1: every `importMet` call reads the destination-chain auction
context (`genesisTime`, `dailyAuctionStartTime`) before any transaction
is constructed, signed or broadcast — the trace starts with the nonce
fetch and the two context reads, none of which is a send — and if either
context read rejects, the call rejects and the trace contains no
construct-sign-broadcast event at all. -/
theorem importMet_context_read_before_sign (env : Env)
    (logTransaction : Handle → JsVal → JsVal → Handle) (metaParsers : MetaParsers)
    (privateKey : JsVal) (params : ImportMetParams) :
    (∃ rest, (importMet env logTransaction metaParsers privateKey params).2 =
        Event.fetchNonce params.fromAddr :: Event.readGenesisTime ::
          Event.readDailyAuctionStartTime :: rest ∧
        (Event.fetchNonce params.fromAddr).isSend = false ∧
        Event.readGenesisTime.isSend = false ∧
        Event.readDailyAuctionStartTime.isSend = false) ∧
    ((env.genesisTime.isOk = false ∨ env.dailyAuctionStartTime.isOk = false) →
      (importMet env logTransaction metaParsers privateKey params).1.isOk = false ∧
      ∀ e ∈ (importMet env logTransaction metaParsers privateKey params).2,
        e.isSend = false) := by
  cases hn : env.transactionCount params.fromAddr <;>
    cases hg : env.genesisTime <;>
      cases hd : env.dailyAuctionStartTime <;>
        simp [importMet, hn, hg, hd, Event.isSend, Except.isOk, Except.toBool]

/-- C1 witness: with a failing `genesisTime` read, the sample `importMet`
call rejects and its trace holds no construct-sign-broadcast event. -/
theorem importMet_context_read_before_sign_witness :
    (importMet failEnv idLog sampleParsers samplePk sampleImportParams).1.isOk = false ∧
    ∀ e ∈ (importMet failEnv idLog sampleParsers samplePk sampleImportParams).2,
      e.isSend = false :=
  (importMet_context_read_before_sign failEnv idLog sampleParsers samplePk
    sampleImportParams).2 (Or.inl rfl)

/-- C2 counterexample: the claim says every field other than
`genesisTime` and `dailyAuctionStartTime` reaches the `importMET` call
unchanged, but with `originChain = "ETH"` the first argument actually
sent is the hex encoding `"0x455448"`, not the caller's `"ETH"`. -/
theorem importMet_originChain_not_unchanged :
    sampleImportParams.originChain = JsVal.str "ETH" ∧
    (firstSentArgs
        (importMet sampleEnv idLog sampleParsers samplePk sampleImportParams).2).bind
      List.head? = some (.val (.str "0x455448")) ∧
    JsVal.str "0x455448" ≠ JsVal.str "ETH" := by
  refine ⟨rfl, rfl, by decide⟩

/-- C2 (amended): for every `importMet` call whose three collaborator
reads succeed, the on-chain `importMET` call is invoked with exactly the
ImportProof tuple in the order `(originChain, destinationChain,
[destinationMetAddress, from], extraData, [previousBurnHash,
currentBurnHash], supply, [blockTimestamp, value, fee, currentTick,
genesisTime, dailyMintable, burnSequence, dailyAuctionStartTime],
merkleRoot)`, where `genesisTime` and `dailyAuctionStartTime` are the
values just read from the destination chain, `originChain` and
`destinationChain` are hex-encoded via `toHex`, every other field comes
unchanged from the caller's parameters, and the resulting handle is
routed through `metaParsers.importRequest`. -/
theorem importMet_sends_importProof_tuple (env : Env)
    (logTransaction : Handle → JsVal → JsVal → Handle) (metaParsers : MetaParsers)
    (privateKey : JsVal) (params : ImportMetParams)
    (nonce genesisTime dailyAuctionStartTime : JsVal)
    (hn : env.transactionCount params.fromAddr = .ok nonce)
    (hg : env.genesisTime = .ok genesisTime)
    (hd : env.dailyAuctionStartTime = .ok dailyAuctionStartTime) :
    (importMet env logTransaction metaParsers privateKey params).1 =
      .ok (logTransaction
        (Handle.contractSend
          { method := "importMET"
            args :=
              [ .val (toHexJs params.originChain),
                .val (toHexJs params.destinationChain),
                .list [params.destinationMetAddress, params.fromAddr],
                .val params.extraData,
                .list [params.previousBurnHash, params.currentBurnHash],
                .val params.supply,
                .list [params.blockTimestamp, params.value, params.fee,
                       params.currentTick, genesisTime, params.dailyMintable,
                       params.burnSequence, dailyAuctionStartTime],
                .val params.root ]
            opts :=
              { fromAddr := params.fromAddr, gasPrice := params.gasPrice,
                gas := params.gas, nonce := nonce } })
        params.fromAddr
        (metaParsers.importRequest
          { returnValues :=
              { amountToImport := params.value
                currentBurnHash := params.currentBurnHash
                fee := params.fee
                originChain := toHexJs params.originChain
                destinationRecipientAddr := params.fromAddr } })) := by
  simp [importMet, hn, hg, hd]

/-- C2 witness: the amended tuple theorem applied to the sample call. -/
theorem importMet_sends_importProof_tuple_witness :
    (importMet sampleEnv idLog sampleParsers samplePk sampleImportParams).1 =
      .ok (idLog
        (Handle.contractSend
          { method := "importMET"
            args :=
              [ .val (toHexJs sampleImportParams.originChain),
                .val (toHexJs sampleImportParams.destinationChain),
                .list [sampleImportParams.destinationMetAddress,
                       sampleImportParams.fromAddr],
                .val sampleImportParams.extraData,
                .list [sampleImportParams.previousBurnHash,
                       sampleImportParams.currentBurnHash],
                .val sampleImportParams.supply,
                .list [sampleImportParams.blockTimestamp, sampleImportParams.value,
                       sampleImportParams.fee, sampleImportParams.currentTick,
                       .num 1000, sampleImportParams.dailyMintable,
                       sampleImportParams.burnSequence, .num 2000],
                .val sampleImportParams.root ]
            opts :=
              { fromAddr := sampleImportParams.fromAddr,
                gasPrice := sampleImportParams.gasPrice,
                gas := sampleImportParams.gas, nonce := .num 7 } })
        sampleImportParams.fromAddr
        (sampleParsers.importRequest
          { returnValues :=
              { amountToImport := sampleImportParams.value
                currentBurnHash := sampleImportParams.currentBurnHash
                fee := sampleImportParams.fee
                originChain := toHexJs sampleImportParams.originChain
                destinationRecipientAddr := sampleImportParams.fromAddr } })) :=
  importMet_sends_importProof_tuple sampleEnv idLog sampleParsers samplePk
    sampleImportParams (.num 7) (.num 1000) (.num 2000) rfl rfl rfl

/-- C10: for every `importMet` call whose collaborator reads succeed, the
`importRequest` meta template carries `destinationRecipientAddr` equal to
the local `from` address, `amountToImport` equal to the requested value,
`originChain` hex-encoded via `toHex`, and the caller's `currentBurnHash`
and `fee` unchanged. -/
theorem importMet_importRequest_meta (env : Env)
    (logTransaction : Handle → JsVal → JsVal → Handle) (metaParsers : MetaParsers)
    (privateKey : JsVal) (params : ImportMetParams)
    (nonce genesisTime dailyAuctionStartTime : JsVal)
    (hn : env.transactionCount params.fromAddr = .ok nonce)
    (hg : env.genesisTime = .ok genesisTime)
    (hd : env.dailyAuctionStartTime = .ok dailyAuctionStartTime) :
    ∃ h, (importMet env logTransaction metaParsers privateKey params).1 =
      .ok (logTransaction h params.fromAddr
        (metaParsers.importRequest
          { returnValues :=
              { amountToImport := params.value
                currentBurnHash := params.currentBurnHash
                fee := params.fee
                originChain := toHexJs params.originChain
                destinationRecipientAddr := params.fromAddr } })) := by
  refine ⟨Handle.contractSend
    { method := "importMET"
      args :=
        [ .val (toHexJs params.originChain),
          .val (toHexJs params.destinationChain),
          .list [params.destinationMetAddress, params.fromAddr],
          .val params.extraData,
          .list [params.previousBurnHash, params.currentBurnHash],
          .val params.supply,
          .list [params.blockTimestamp, params.value, params.fee,
                 params.currentTick, genesisTime, params.dailyMintable,
                 params.burnSequence, dailyAuctionStartTime],
          .val params.root ]
      opts :=
        { fromAddr := params.fromAddr, gasPrice := params.gasPrice,
          gas := params.gas, nonce := nonce } }, ?_⟩
  simp [importMet, hn, hg, hd]

/-- C10 witness: the meta theorem applied to the sample call. -/
theorem importMet_importRequest_meta_witness :
    ∃ h, (importMet sampleEnv idLog sampleParsers samplePk sampleImportParams).1 =
      .ok (idLog h sampleImportParams.fromAddr
        (sampleParsers.importRequest
          { returnValues :=
              { amountToImport := sampleImportParams.value
                currentBurnHash := sampleImportParams.currentBurnHash
                fee := sampleImportParams.fee
                originChain := toHexJs sampleImportParams.originChain
                destinationRecipientAddr := sampleImportParams.fromAddr } })) :=
  importMet_importRequest_meta sampleEnv idLog sampleParsers samplePk
    sampleImportParams (.num 7) (.num 1000) (.num 2000) rfl rfl rfl

/-- C3 counterexample: at identical parameters (destination chain "ETH",
truthy fee), the argument sequence the export gas estimate passes to the
SDK starts with the raw "ETH", while the signed `export` send starts
with the hex-encoded "0x455448" — the two argument lists are not
element-for-element identical. -/
theorem exportGasEstimate_args_diverge_from_send :
    firstSentArgs (exportMet sampleEnv idLog sampleParsers samplePk
        sampleExportParams).2 =
      some [ .val (.str "0x455448"), .val (.str "0x00aa"), .val (.str "0x22cc"),
             .val (.num 1000), .val (.num 1), .val (.str "0x00") ] ∧
    (estimateExportMetGasSeq (estimateExportMetGas sampleExportParams)).map Arg.val =
      [ .val (.str "ETH"), .val (.str "0x00aa"), .val (.str "0x22cc"),
        .val (.num 1000), .val (.num 1), .val (.str "0x00") ] ∧
    (estimateExportMetGasSeq (estimateExportMetGas sampleExportParams)).map Arg.val ≠
      [ .val (.str "0x455448"), .val (.str "0x00aa"), .val (.str "0x22cc"),
        .val (.num 1000), .val (.num 1), .val (.str "0x00") ] := by
  refine ⟨rfl, rfl, by decide⟩

/-- C3 (amended): for identical input parameters the import gas estimate
and the `importMET` send construct element-for-element identical
argument lists, and the export gas estimate and the `export` send use
the same named-parameter order `(destinationChain, destinationMetAddress,
to-or-from, value, fee, extraData)`, where the send path additionally
hex-encodes `destinationChain` via `toHex` and substitutes the resolved
fee — so with a truthy caller fee the two export argument sequences
coincide exactly when `destinationChain` is already hex-encoded. -/
theorem gasEstimate_send_parameter_order (env : Env)
    (logTransaction : Handle → JsVal → JsVal → Handle) (metaParsers : MetaParsers)
    (privateKey : JsVal) (pi : ImportMetParams) (pe : ExportMetParams)
    (ni g d ne : JsVal)
    (hni : env.transactionCount pi.fromAddr = .ok ni)
    (hg : env.genesisTime = .ok g)
    (hd : env.dailyAuctionStartTime = .ok d)
    (hne : env.transactionCount pe.fromAddr = .ok ne)
    (hfee : truthy pe.fee = true) :
    ((estimateImportMetGas env pi).1.toOption.map GasEstimateCall.args =
      firstSentArgs (importMet env logTransaction metaParsers privateKey pi).2) ∧
    (estimateExportMetGasSeq (estimateExportMetGas pe) =
      [pe.destinationChain, pe.destinationMetAddress, jsOr pe.toAddr pe.fromAddr,
       pe.value, pe.fee, pe.extraData]) ∧
    (firstSentArgs (exportMet env logTransaction metaParsers privateKey pe).2 =
      some [ .val (toHexJs pe.destinationChain), .val pe.destinationMetAddress,
             .val (jsOr pe.toAddr pe.fromAddr), .val pe.value, .val pe.fee,
             .val pe.extraData ]) ∧
    (toHexJs pe.destinationChain = pe.destinationChain →
      some ((estimateExportMetGasSeq (estimateExportMetGas pe)).map Arg.val) =
        firstSentArgs (exportMet env logTransaction metaParsers privateKey pe).2) := by
  refine ⟨?_, rfl, ?_, ?_⟩
  · simp [estimateImportMetGas, importMet, hni, hg, hd, firstSentArgs, sentCalls,
      Except.toOption]
  · simp [exportMet, hne, hfee, firstSentArgs, sentCalls]
  · intro hhex
    simp [exportMet, hne, hfee, firstSentArgs, sentCalls,
      estimateExportMetGas, estimateExportMetGasSeq, hhex]

/-- C3 witness: the amended theorem at the sample calls (hex-strict
destination chain for the export half). -/
theorem gasEstimate_send_parameter_order_witness :
    ((estimateImportMetGas sampleEnv sampleImportParams).1.toOption.map
        GasEstimateCall.args =
      firstSentArgs (importMet sampleEnv idLog sampleParsers samplePk
        sampleImportParams).2) ∧
    (estimateExportMetGasSeq (estimateExportMetGas sampleExportParams) =
      [sampleExportParams.destinationChain, sampleExportParams.destinationMetAddress,
       jsOr sampleExportParams.toAddr sampleExportParams.fromAddr,
       sampleExportParams.value, sampleExportParams.fee,
       sampleExportParams.extraData]) ∧
    (firstSentArgs (exportMet sampleEnv idLog sampleParsers samplePk
        sampleExportParams).2 =
      some [ .val (toHexJs sampleExportParams.destinationChain),
             .val sampleExportParams.destinationMetAddress,
             .val (jsOr sampleExportParams.toAddr sampleExportParams.fromAddr),
             .val sampleExportParams.value, .val sampleExportParams.fee,
             .val sampleExportParams.extraData ]) ∧
    (toHexJs sampleExportParams.destinationChain =
        sampleExportParams.destinationChain →
      some ((estimateExportMetGasSeq
          (estimateExportMetGas sampleExportParams)).map Arg.val) =
        firstSentArgs (exportMet sampleEnv idLog sampleParsers samplePk
          sampleExportParams).2) :=
  gasEstimate_send_parameter_order sampleEnv idLog sampleParsers samplePk
    sampleImportParams sampleExportParams (.num 7) (.num 1000) (.num 2000)
    (.num 7) rfl rfl rfl rfl rfl

/-- C4: for every `exportMet` call whose nonce fetch succeeds, a truthy
caller-supplied fee is placed as-is in the fee slot of the `export` call
and the fee-estimation collaborator is never consulted; with a falsy fee
(absent or `0`), the fee slot carries the value obtained by querying
`getExportMetFee` with the transfer value. -/
theorem exportMet_fee_resolution (env : Env)
    (logTransaction : Handle → JsVal → JsVal → Handle) (metaParsers : MetaParsers)
    (privateKey : JsVal) (params : ExportMetParams) (nonce : JsVal)
    (hn : env.transactionCount params.fromAddr = .ok nonce) :
    (truthy params.fee = true →
      firstSentArgs (exportMet env logTransaction metaParsers privateKey params).2 =
        some [ .val (toHexJs params.destinationChain),
               .val params.destinationMetAddress,
               .val (jsOr params.toAddr params.fromAddr),
               .val params.value, .val params.fee, .val params.extraData ] ∧
      Event.fetchExportMetFee params.value ∉
        (exportMet env logTransaction metaParsers privateKey params).2) ∧
    (∀ fv, truthy params.fee = false → env.exportMetFee params.value = .ok fv →
      firstSentArgs (exportMet env logTransaction metaParsers privateKey params).2 =
        some [ .val (toHexJs params.destinationChain),
               .val params.destinationMetAddress,
               .val (jsOr params.toAddr params.fromAddr),
               .val params.value, .val fv, .val params.extraData ] ∧
      Event.fetchExportMetFee params.value ∈
        (exportMet env logTransaction metaParsers privateKey params).2) := by
  constructor
  · intro hf
    simp [exportMet, hn, hf, firstSentArgs, sentCalls]
  · intro fv hf hfv
    simp [exportMet, hn, hf, hfv, firstSentArgs, sentCalls]

/-- C4 witness: with `fee = 0` the sample export queries the estimator
and sends its answer; with `fee = 1` it sends the caller's fee and never
queries. -/
theorem exportMet_fee_resolution_witness :
    (firstSentArgs (exportMet sampleEnv idLog sampleParsers samplePk
        sampleExportParams).2 =
      some [ .val (toHexJs sampleExportParams.destinationChain),
             .val sampleExportParams.destinationMetAddress,
             .val (jsOr sampleExportParams.toAddr sampleExportParams.fromAddr),
             .val sampleExportParams.value, .val sampleExportParams.fee,
             .val sampleExportParams.extraData ] ∧
      Event.fetchExportMetFee sampleExportParams.value ∉
        (exportMet sampleEnv idLog sampleParsers samplePk sampleExportParams).2) ∧
    (firstSentArgs (exportMet sampleEnv idLog sampleParsers samplePk
        sampleExportParamsNoFee).2 =
      some [ .val (toHexJs sampleExportParamsNoFee.destinationChain),
             .val sampleExportParamsNoFee.destinationMetAddress,
             .val (jsOr sampleExportParamsNoFee.toAddr sampleExportParamsNoFee.fromAddr),
             .val sampleExportParamsNoFee.value, .val (.num 3),
             .val sampleExportParamsNoFee.extraData ] ∧
      Event.fetchExportMetFee sampleExportParamsNoFee.value ∈
        (exportMet sampleEnv idLog sampleParsers samplePk
          sampleExportParamsNoFee).2) :=
  ⟨(exportMet_fee_resolution sampleEnv idLog sampleParsers samplePk
      sampleExportParams (.num 7) rfl).1 rfl,
   (exportMet_fee_resolution sampleEnv idLog sampleParsers samplePk
      sampleExportParamsNoFee (.num 7) rfl).2 (.num 3) rfl rfl⟩

/-- C5: a UTXO-chain `sendCoin` call without a caller-specified feeRate
builds the transaction with feeRate exactly 402; a caller-supplied
feeRate is used unchanged instead. -/
theorem sendCoin_feeRate_default (logTransaction : Handle → JsVal → JsVal → Handle)
    (privateKey : JsVal) (params : SendCoinParams) :
    (params.feeRate = .undef →
      sendCoin logTransaction privateKey params =
        logTransaction
          (.promiEvent (.qtumSend params.toAddr (parseIntJs params.value) (.num 402)))
          params.fromAddr .undef) ∧
    (params.feeRate ≠ .undef →
      sendCoin logTransaction privateKey params =
        logTransaction
          (.promiEvent (.qtumSend params.toAddr (parseIntJs params.value) params.feeRate))
          params.fromAddr .undef) := by
  constructor <;> intro h <;> simp [sendCoin, h]

/-- C5 witness: the default and the override at concrete parameters. -/
theorem sendCoin_feeRate_default_witness :
    (sendCoin idLog samplePk sampleSendCoinParams =
      idLog
        (.promiEvent (.qtumSend sampleSendCoinParams.toAddr
          (parseIntJs sampleSendCoinParams.value) (.num 402)))
        sampleSendCoinParams.fromAddr .undef) ∧
    (sendCoin idLog samplePk { sampleSendCoinParams with feeRate := .num 500 } =
      idLog
        (.promiEvent (.qtumSend sampleSendCoinParams.toAddr
          (parseIntJs sampleSendCoinParams.value) (.num 500)))
        sampleSendCoinParams.fromAddr .undef) :=
  ⟨(sendCoin_feeRate_default idLog samplePk sampleSendCoinParams).1 rfl,
   (sendCoin_feeRate_default idLog samplePk
      { sampleSendCoinParams with feeRate := .num 500 }).2 (by decide)⟩

/-- C6: for every `exportMet` call whose collaborator reads succeed, the
meta template handed to `metaParsers.export` carries exactly the fields
`amountToBurn` (the requested value), `destinationChain`,
`destinationRecipientAddr` (`to || from`: the truthy `to` if supplied,
else `from`), and `fee` (the resolved fee actually placed in the export
call — the caller's fee when truthy, else the estimator's answer). -/
theorem exportMet_meta_template (env : Env)
    (logTransaction : Handle → JsVal → JsVal → Handle) (metaParsers : MetaParsers)
    (privateKey : JsVal) (params : ExportMetParams) (nonce : JsVal)
    (hn : env.transactionCount params.fromAddr = .ok nonce) :
    (truthy params.fee = true →
      ∃ h, (exportMet env logTransaction metaParsers privateKey params).1 =
        .ok (logTransaction h params.fromAddr
          (metaParsers.exportMeta
            { address := params.fromAddr
              returnValues :=
                { amountToBurn := params.value
                  destinationChain := toHexJs params.destinationChain
                  destinationRecipientAddr := jsOr params.toAddr params.fromAddr
                  fee := params.fee } }))) ∧
    (∀ fv, truthy params.fee = false → env.exportMetFee params.value = .ok fv →
      ∃ h, (exportMet env logTransaction metaParsers privateKey params).1 =
        .ok (logTransaction h params.fromAddr
          (metaParsers.exportMeta
            { address := params.fromAddr
              returnValues :=
                { amountToBurn := params.value
                  destinationChain := toHexJs params.destinationChain
                  destinationRecipientAddr := jsOr params.toAddr params.fromAddr
                  fee := fv } }))) := by
  constructor
  · intro hf
    refine ⟨Handle.contractSend
      { method := "export"
        args :=
          [ .val (toHexJs params.destinationChain), .val params.destinationMetAddress,
            .val (jsOr params.toAddr params.fromAddr), .val params.value,
            .val params.fee, .val params.extraData ]
        opts :=
          { fromAddr := params.fromAddr, gasPrice := params.gasPrice,
            gas := params.gas, nonce := nonce } }, ?_⟩
    simp [exportMet, hn, hf]
  · intro fv hf hfv
    refine ⟨Handle.contractSend
      { method := "export"
        args :=
          [ .val (toHexJs params.destinationChain), .val params.destinationMetAddress,
            .val (jsOr params.toAddr params.fromAddr), .val params.value,
            .val fv, .val params.extraData ]
        opts :=
          { fromAddr := params.fromAddr, gasPrice := params.gasPrice,
            gas := params.gas, nonce := nonce } }, ?_⟩
    simp [exportMet, hn, hf, hfv]

/-- C6 witness: the meta template of the sample export with caller fee,
and of the sample export with `fee = 0` (resolved to the estimate 3). -/
theorem exportMet_meta_template_witness :
    (∃ h, (exportMet sampleEnv idLog sampleParsers samplePk sampleExportParams).1 =
      .ok (idLog h sampleExportParams.fromAddr
        (sampleParsers.exportMeta
          { address := sampleExportParams.fromAddr
            returnValues :=
              { amountToBurn := sampleExportParams.value
                destinationChain := toHexJs sampleExportParams.destinationChain
                destinationRecipientAddr :=
                  jsOr sampleExportParams.toAddr sampleExportParams.fromAddr
                fee := sampleExportParams.fee } }))) ∧
    (∃ h, (exportMet sampleEnv idLog sampleParsers samplePk
        sampleExportParamsNoFee).1 =
      .ok (idLog h sampleExportParamsNoFee.fromAddr
        (sampleParsers.exportMeta
          { address := sampleExportParamsNoFee.fromAddr
            returnValues :=
              { amountToBurn := sampleExportParamsNoFee.value
                destinationChain := toHexJs sampleExportParamsNoFee.destinationChain
                destinationRecipientAddr :=
                  jsOr sampleExportParamsNoFee.toAddr sampleExportParamsNoFee.fromAddr
                fee := .num 3 } }))) :=
  ⟨(exportMet_meta_template sampleEnv idLog sampleParsers samplePk
      sampleExportParams (.num 7) rfl).1 rfl,
   (exportMet_meta_template sampleEnv idLog sampleParsers samplePk
      sampleExportParamsNoFee (.num 7) rfl).2 (.num 3) rfl rfl⟩

/-- C7: every `exportMet` and `importMet` call fetches the pending
nonce of `from` as its first network action — within that same call and
before any transaction is signed and sent — and the nonce placed in the
send options is exactly the value the chain returns to that call's
fetch; since the operations consult the environment on every call (they
are quantified over `env` here), no nonce is ever cached across calls. -/
theorem nonce_fetched_fresh_per_call (env : Env)
    (logTransaction : Handle → JsVal → JsVal → Handle) (metaParsers : MetaParsers)
    (privateKey : JsVal) (pe : ExportMetParams) (pi : ImportMetParams) :
    (∃ rest, (exportMet env logTransaction metaParsers privateKey pe).2 =
      Event.fetchNonce pe.fromAddr :: rest) ∧
    (∃ rest, (importMet env logTransaction metaParsers privateKey pi).2 =
      Event.fetchNonce pi.fromAddr :: rest) ∧
    (∀ n, env.transactionCount pe.fromAddr = .ok n →
      ∀ c ∈ sentCalls (exportMet env logTransaction metaParsers privateKey pe).2,
        c.opts.nonce = n) ∧
    (∀ n, env.transactionCount pi.fromAddr = .ok n →
      ∀ c ∈ sentCalls (importMet env logTransaction metaParsers privateKey pi).2,
        c.opts.nonce = n) := by
  refine ⟨?_, ?_, ?_, ?_⟩
  · cases hf : truthy pe.fee <;>
      cases hn : env.transactionCount pe.fromAddr <;>
        cases hfee : env.exportMetFee pe.value <;>
          simp [exportMet, hf, hn, hfee]
  · cases hn : env.transactionCount pi.fromAddr <;>
      cases hg : env.genesisTime <;>
        cases hd : env.dailyAuctionStartTime <;>
          simp [importMet, hn, hg, hd]
  · intro n hn c hc
    cases hf : truthy pe.fee <;>
      cases hfee : env.exportMetFee pe.value <;>
        simp [exportMet, hf, hn, hfee, sentCalls] at hc <;>
          simp [hc]
  · intro n hn c hc
    cases hg : env.genesisTime <;>
      cases hd : env.dailyAuctionStartTime <;>
        simp [importMet, hn, hg, hd, sentCalls] at hc <;>
          simp [hc]

/-- C7 witness: in the sample environment (pending transaction count 7)
both sample calls fetch the nonce first and send with nonce 7. -/
theorem nonce_fetched_fresh_per_call_witness :
    (∃ rest, (exportMet sampleEnv idLog sampleParsers samplePk
        sampleExportParams).2 =
      Event.fetchNonce sampleExportParams.fromAddr :: rest) ∧
    (∃ rest, (importMet sampleEnv idLog sampleParsers samplePk
        sampleImportParams).2 =
      Event.fetchNonce sampleImportParams.fromAddr :: rest) ∧
    (∀ c ∈ sentCalls (exportMet sampleEnv idLog sampleParsers samplePk
        sampleExportParams).2, c.opts.nonce = .num 7) ∧
    (∀ c ∈ sentCalls (importMet sampleEnv idLog sampleParsers samplePk
        sampleImportParams).2, c.opts.nonce = .num 7) := by
  obtain ⟨h1, h2, h3, h4⟩ := nonce_fetched_fresh_per_call sampleEnv idLog
    sampleParsers samplePk sampleExportParams sampleImportParams
  exact ⟨h1, h2, h3 (.num 7) rfl, h4 (.num 7) rfl⟩

/-- C8: every send-type operation returns the result of applying the
injected `logTransaction` decorator to its broadcast handle with the
sender address as the second argument: the qtum `sendCoin` hands it the
`toPromiEvent`-wrapped wallet send built in the same call and passes no
meta template (`undefined`), while `sendMet`, `exportMet` and
`importMet` hand it exactly the handle that was signed and broadcast in
the same call together with a `metaParsers`-produced template. -/
theorem operations_return_logTransaction_result (env : Env)
    (logTransaction : Handle → JsVal → JsVal → Handle) (metaParsers : MetaParsers)
    (privateKey : JsVal) (psc : SendCoinParams) (psm : SendMetParams)
    (pe : ExportMetParams) (pi : ImportMetParams) :
    (sendCoin logTransaction privateKey psc =
      logTransaction
        (.promiEvent (.qtumSend psc.toAddr (parseIntJs psc.value)
          (if psc.feeRate = .undef then .num 402 else psc.feeRate)))
        psc.fromAddr .undef) ∧
    ((sendMet env logTransaction metaParsers privateKey psm).1.isOk = true →
      ∃ h a, (sendMet env logTransaction metaParsers privateKey psm).1 =
          .ok (logTransaction h psm.fromAddr (metaParsers.transfer a)) ∧
        Event.signAndSend h ∈
          (sendMet env logTransaction metaParsers privateKey psm).2) ∧
    ((exportMet env logTransaction metaParsers privateKey pe).1.isOk = true →
      ∃ h a, (exportMet env logTransaction metaParsers privateKey pe).1 =
          .ok (logTransaction h pe.fromAddr (metaParsers.exportMeta a)) ∧
        Event.signAndSend h ∈
          (exportMet env logTransaction metaParsers privateKey pe).2) ∧
    ((importMet env logTransaction metaParsers privateKey pi).1.isOk = true →
      ∃ h a, (importMet env logTransaction metaParsers privateKey pi).1 =
          .ok (logTransaction h pi.fromAddr (metaParsers.importRequest a)) ∧
        Event.signAndSend h ∈
          (importMet env logTransaction metaParsers privateKey pi).2) := by
  refine ⟨rfl, ?_, ?_, ?_⟩
  · intro hok
    cases hc : env.metTokenAddress with
    | error e => simp [sendMet, hc, Except.isOk, Except.toBool] at hok
    | ok addr =>
      exact ⟨Handle.metSendMet psm.toAddr psm.value psm.fromAddr psm.gasPrice psm.gas,
        { address := addr
          returnValues :=
            { _from := psm.fromAddr, _to := psm.toAddr, _value := psm.value } },
        by simp [sendMet, hc], by simp [sendMet, hc]⟩
  · intro hok
    cases hn : env.transactionCount pe.fromAddr with
    | error e =>
      cases hf : truthy pe.fee <;>
        cases hfee : env.exportMetFee pe.value <;>
          simp [exportMet, hf, hn, hfee, Except.isOk, Except.toBool] at hok
    | ok nonce =>
      cases hf : truthy pe.fee with
      | true =>
        exact ⟨Handle.contractSend
          { method := "export"
            args :=
              [ .val (toHexJs pe.destinationChain), .val pe.destinationMetAddress,
                .val (jsOr pe.toAddr pe.fromAddr), .val pe.value,
                .val pe.fee, .val pe.extraData ]
            opts :=
              { fromAddr := pe.fromAddr, gasPrice := pe.gasPrice,
                gas := pe.gas, nonce := nonce } },
          { address := pe.fromAddr
            returnValues :=
              { amountToBurn := pe.value
                destinationChain := toHexJs pe.destinationChain
                destinationRecipientAddr := jsOr pe.toAddr pe.fromAddr
                fee := pe.fee } },
          by simp [exportMet, hn, hf], by simp [exportMet, hn, hf]⟩
      | false =>
        cases hfee : env.exportMetFee pe.value with
        | error e => simp [exportMet, hf, hn, hfee, Except.isOk, Except.toBool] at hok
        | ok fv =>
          exact ⟨Handle.contractSend
            { method := "export"
              args :=
                [ .val (toHexJs pe.destinationChain), .val pe.destinationMetAddress,
                  .val (jsOr pe.toAddr pe.fromAddr), .val pe.value,
                  .val fv, .val pe.extraData ]
              opts :=
                { fromAddr := pe.fromAddr, gasPrice := pe.gasPrice,
                  gas := pe.gas, nonce := nonce } },
            { address := pe.fromAddr
              returnValues :=
                { amountToBurn := pe.value
                  destinationChain := toHexJs pe.destinationChain
                  destinationRecipientAddr := jsOr pe.toAddr pe.fromAddr
                  fee := fv } },
            by simp [exportMet, hn, hf, hfee], by simp [exportMet, hn, hf, hfee]⟩
  · intro hok
    cases hn : env.transactionCount pi.fromAddr with
    | error e =>
      cases hg : env.genesisTime <;>
        cases hd : env.dailyAuctionStartTime <;>
          simp [importMet, hn, hg, hd, Except.isOk, Except.toBool] at hok
    | ok nonce =>
      cases hg : env.genesisTime with
      | error e =>
        cases hd : env.dailyAuctionStartTime <;>
          simp [importMet, hn, hg, hd, Except.isOk, Except.toBool] at hok
      | ok g =>
        cases hd : env.dailyAuctionStartTime with
        | error e => simp [importMet, hn, hg, hd, Except.isOk, Except.toBool] at hok
        | ok d =>
          exact ⟨Handle.contractSend
            { method := "importMET"
              args :=
                [ .val (toHexJs pi.originChain),
                  .val (toHexJs pi.destinationChain),
                  .list [pi.destinationMetAddress, pi.fromAddr],
                  .val pi.extraData,
                  .list [pi.previousBurnHash, pi.currentBurnHash],
                  .val pi.supply,
                  .list [pi.blockTimestamp, pi.value, pi.fee, pi.currentTick,
                         g, pi.dailyMintable, pi.burnSequence, d],
                  .val pi.root ]
              opts :=
                { fromAddr := pi.fromAddr, gasPrice := pi.gasPrice,
                  gas := pi.gas, nonce := nonce } },
            { returnValues :=
                { amountToImport := pi.value
                  currentBurnHash := pi.currentBurnHash
                  fee := pi.fee
                  originChain := toHexJs pi.originChain
                  destinationRecipientAddr := pi.fromAddr } },
            by simp [importMet, hn, hg, hd], by simp [importMet, hn, hg, hd]⟩

/-- C8 witness: the routing property at the sample calls, whose success
side conditions hold in the sample environment. -/
theorem operations_return_logTransaction_result_witness :
    ((sendMet sampleEnv idLog sampleParsers samplePk sampleSendMetParams).1.isOk
        = true ∧
      (exportMet sampleEnv idLog sampleParsers samplePk sampleExportParams).1.isOk
        = true ∧
      (importMet sampleEnv idLog sampleParsers samplePk sampleImportParams).1.isOk
        = true) ∧
    (sendCoin idLog samplePk sampleSendCoinParams =
      idLog
        (.promiEvent (.qtumSend sampleSendCoinParams.toAddr
          (parseIntJs sampleSendCoinParams.value)
          (if sampleSendCoinParams.feeRate = .undef then .num 402
           else sampleSendCoinParams.feeRate)))
        sampleSendCoinParams.fromAddr .undef) ∧
    (∃ h a, (sendMet sampleEnv idLog sampleParsers samplePk sampleSendMetParams).1 =
        .ok (idLog h sampleSendMetParams.fromAddr (sampleParsers.transfer a)) ∧
      Event.signAndSend h ∈
        (sendMet sampleEnv idLog sampleParsers samplePk sampleSendMetParams).2) ∧
    (∃ h a, (exportMet sampleEnv idLog sampleParsers samplePk sampleExportParams).1 =
        .ok (idLog h sampleExportParams.fromAddr (sampleParsers.exportMeta a)) ∧
      Event.signAndSend h ∈
        (exportMet sampleEnv idLog sampleParsers samplePk sampleExportParams).2) ∧
    (∃ h a, (importMet sampleEnv idLog sampleParsers samplePk sampleImportParams).1 =
        .ok (idLog h sampleImportParams.fromAddr (sampleParsers.importRequest a)) ∧
      Event.signAndSend h ∈
        (importMet sampleEnv idLog sampleParsers samplePk sampleImportParams).2) := by
  obtain ⟨h1, h2, h3, h4⟩ := operations_return_logTransaction_result sampleEnv
    idLog sampleParsers samplePk sampleSendCoinParams sampleSendMetParams
    sampleExportParams sampleImportParams
  exact ⟨⟨rfl, rfl, rfl⟩, h1, h2 rfl, h3 rfl, h4 rfl⟩

/-- A decimal digit character has numeric code between 48 and 57. -/
lemma isDecDigit_bounds (c : Char) (h : isDecDigit c = true) :
    48 ≤ c.toNat ∧ c.toNat ≤ 57 := by
  simpa [isDecDigit] using h

/-- On a decimal digit, `digitValue` in base 10 is the digit's value. -/
lemma digitValue_ten_of_isDecDigit (c : Char) (h : isDecDigit c = true) :
    digitValue 10 c = some (c.toNat - 48) := by
  have hb := isDecDigit_bounds c h
  have hlt : c.toNat - 48 < 10 := by omega
  simp [digitValue, h, hlt]

/-- On a non-digit, `digitValue` in base 10 is `none` (the hex letters
have values 10–15, all filtered out in base 10). -/
lemma digitValue_ten_of_not_digit (c : Char) (h : isDecDigit c = false) :
    digitValue 10 c = none := by
  simp only [digitValue, h, Bool.false_eq_true, if_false]
  split_ifs with h1 h2
  · simp only [Bool.and_eq_true, decide_eq_true_eq] at h1
    have : ¬(c.toNat - 87 < 10) := by omega
    simp [this]
  · simp only [Bool.and_eq_true, decide_eq_true_eq] at h2
    have : ¬(c.toNat - 55 < 10) := by omega
    simp [this]
  · rfl

/-- A decimal digit is not whitespace. -/
lemma isDecDigit_not_whitespace (c : Char) (h : isDecDigit c = true) :
    c.isWhitespace = false := by
  have hb := isDecDigit_bounds c h
  simp only [Char.isWhitespace, Bool.or_eq_false_iff, decide_eq_false_iff_not]
  refine ⟨⟨⟨?_, ?_⟩, ?_⟩, ?_⟩ <;> rintro rfl <;>
    first
      | exact absurd hb.1 (by decide)
      | exact absurd hb.2 (by decide)

/-- A decimal digit is none of the sign and hex-marker characters. -/
lemma isDecDigit_ne_sign_hex (c : Char) (h : isDecDigit c = true) :
    c ≠ '-' ∧ c ≠ '+' ∧ c ≠ 'x' ∧ c ≠ 'X' := by
  have hb := isDecDigit_bounds c h
  refine ⟨?_, ?_, ?_, ?_⟩ <;> rintro rfl <;>
    first
      | exact absurd hb.1 (by decide)
      | exact absurd hb.2 (by decide)

/-- `takeDigits` in base 10 stops at the first non-digit: on an all-digit
prefix followed by a non-digit, it takes exactly the prefix. -/
lemma takeDigits_ten_append_stop (xs : List Char) (c : Char) (ys : List Char)
    (hxs : xs.all isDecDigit = true) (hc : digitValue 10 c = none) :
    takeDigits 10 (xs ++ c :: ys) = takeDigits 10 xs := by
  induction xs with
  | nil => simp [takeDigits, hc]
  | cons x t ih =>
    rw [List.all_cons, Bool.and_eq_true] at hxs
    rw [List.cons_append]
    simp [takeDigits, digitValue_ten_of_isDecDigit x hxs.1, ih hxs.2]

/-- `parseInt` of a string of the form `digits ++ "." ++ rest` parses
exactly the integer-digit prefix: the fractional part is discarded. -/
lemma parseIntString_int_dot (d : Char) (ds fs : List Char)
    (hd : isDecDigit d = true) (hds : ds.all isDecDigit = true) :
    parseIntString (String.mk (d :: ds ++ '.' :: fs)) =
      digitsToNum 10 (takeDigits 10 (d :: ds)) := by
  have hw := isDecDigit_not_whitespace d hd
  have hsign := isDecDigit_ne_sign_hex d hd
  have hdot : digitValue 10 '.' = none := by decide
  show parseIntSigned
    (((d :: ds) ++ '.' :: fs).dropWhile Char.isWhitespace) = _
  rw [List.cons_append, List.dropWhile_cons, if_neg (by simp [hw])]
  show (if d = '-' then jsNeg (parseIntCore (ds ++ '.' :: fs))
        else if d = '+' then parseIntCore (ds ++ '.' :: fs)
        else parseIntCore (d :: (ds ++ '.' :: fs))) = _
  rw [if_neg hsign.1, if_neg hsign.2.1]
  cases ds with
  | nil =>
    show (if d = '0' && ('.' = 'x' || '.' = 'X') then digitsToNum 16 (takeDigits 16 fs)
          else digitsToNum 10 (takeDigits 10 (d :: '.' :: fs))) = _
    rw [if_neg (by simp)]
    rw [show d :: '.' :: fs = [d] ++ '.' :: fs from rfl]
    rw [takeDigits_ten_append_stop [d] '.' fs (by simp [hd]) hdot]
  | cons e t =>
    rw [List.all_cons, Bool.and_eq_true] at hds
    have hex := isDecDigit_ne_sign_hex e hds.1
    show (if d = '0' && (e = 'x' || e = 'X')
            then digitsToNum 16 (takeDigits 16 (t ++ '.' :: fs))
          else digitsToNum 10 (takeDigits 10 (d :: e :: (t ++ '.' :: fs)))) = _
    rw [if_neg (by simp [hex.2.2.1, hex.2.2.2])]
    rw [show d :: e :: (t ++ '.' :: fs) = (d :: e :: t) ++ '.' :: fs from rfl]
    rw [takeDigits_ten_append_stop (d :: e :: t) '.' fs
      (by simp [List.all_cons, hd, hds.1, hds.2]) hdot]

/-- `parseInt` of a nonempty string whose first character is not
whitespace, not a sign, and not a digit is `NaN`. -/
lemma parseIntString_nan (c : Char) (cs : List Char)
    (hw : c.isWhitespace = false) (hcd : isDecDigit c = false)
    (hplus : c ≠ '+') (hminus : c ≠ '-') :
    parseIntString (String.mk (c :: cs)) = .nan := by
  have hnod := digitValue_ten_of_not_digit c hcd
  have hc0 : c ≠ '0' := by
    intro h
    rw [h] at hcd
    exact absurd hcd (by decide)
  show parseIntSigned ((c :: cs).dropWhile Char.isWhitespace) = _
  rw [List.dropWhile_cons, if_neg (by simp [hw])]
  show (if c = '-' then jsNeg (parseIntCore cs)
        else if c = '+' then parseIntCore cs
        else parseIntCore (c :: cs)) = _
  rw [if_neg hminus, if_neg hplus]
  cases cs with
  | nil =>
    show digitsToNum 10 (takeDigits 10 [c]) = _
    simp [takeDigits, hnod, digitsToNum]
  | cons c1 t =>
    show (if c = '0' && (c1 = 'x' || c1 = 'X') then digitsToNum 16 (takeDigits 16 t)
          else digitsToNum 10 (takeDigits 10 (c :: c1 :: t))) = _
    rw [if_neg (by simp [hc0])]
    simp [takeDigits, hnod, digitsToNum]

/-- C9: the UTXO-chain `sendCoin` feeds the caller's value through
`Number.parseInt` before building the transaction: a value string made
of an integer digit part, a dot and a fractional part is truncated to
its integer-digit prefix, and a value string that does not start with a
parseable number becomes `NaN` — and in both cases `sendCoin` still
builds, wraps and logs the transaction rather than rejecting with any
input-validation error. -/
theorem sendCoin_parseInt_truncation_and_nan
    (logTransaction : Handle → JsVal → JsVal → Handle) (privateKey : JsVal)
    (p q : SendCoinParams) (d : Char) (ds fs : List Char)
    (hpv : p.value = .str (String.mk (d :: ds ++ '.' :: fs)))
    (hd : isDecDigit d = true) (hds : ds.all isDecDigit = true)
    (c : Char) (cs : List Char)
    (hqv : q.value = .str (String.mk (c :: cs)))
    (hw : c.isWhitespace = false) (hcd : isDecDigit c = false)
    (hplus : c ≠ '+') (hminus : c ≠ '-') :
    (parseIntJs p.value = digitsToNum 10 (takeDigits 10 (d :: ds)) ∧
     sendCoin logTransaction privateKey p =
       logTransaction
         (.promiEvent (.qtumSend p.toAddr (digitsToNum 10 (takeDigits 10 (d :: ds)))
           (if p.feeRate = .undef then .num 402 else p.feeRate)))
         p.fromAddr .undef) ∧
    (parseIntJs q.value = .nan ∧
     sendCoin logTransaction privateKey q =
       logTransaction
         (.promiEvent (.qtumSend q.toAddr .nan
           (if q.feeRate = .undef then .num 402 else q.feeRate)))
         q.fromAddr .undef) := by
  have hp : parseIntJs p.value = digitsToNum 10 (takeDigits 10 (d :: ds)) := by
    rw [hpv]
    exact parseIntString_int_dot d ds fs hd hds
  have hq : parseIntJs q.value = .nan := by
    rw [hqv]
    exact parseIntString_nan c cs hw hcd hplus hminus
  refine ⟨⟨hp, ?_⟩, ⟨hq, ?_⟩⟩
  · simp [sendCoin, hp]
  · simp [sendCoin, hq]

/-- C9 witness: value "10.5" is sent as 10 (the ".5" is discarded) and
value "abc" is sent as `NaN`; neither call rejects. -/
theorem sendCoin_parseInt_truncation_and_nan_witness :
    (parseIntJs sampleSendCoinParams.value =
        digitsToNum 10 (takeDigits 10 ['1', '0']) ∧
      sendCoin idLog samplePk sampleSendCoinParams =
        idLog
          (.promiEvent (.qtumSend sampleSendCoinParams.toAddr
            (digitsToNum 10 (takeDigits 10 ['1', '0']))
            (if sampleSendCoinParams.feeRate = .undef then .num 402
             else sampleSendCoinParams.feeRate)))
          sampleSendCoinParams.fromAddr .undef) ∧
    (parseIntJs { sampleSendCoinParams with value := .str "abc" : SendCoinParams }.value
        = .nan ∧
      sendCoin idLog samplePk { sampleSendCoinParams with value := .str "abc" } =
        idLog
          (.promiEvent (.qtumSend sampleSendCoinParams.toAddr .nan
            (if sampleSendCoinParams.feeRate = .undef then .num 402
             else sampleSendCoinParams.feeRate)))
          sampleSendCoinParams.fromAddr .undef) ∧
    digitsToNum 10 (takeDigits 10 ['1', '0']) = .num 10 :=
  ⟨(sendCoin_parseInt_truncation_and_nan idLog samplePk sampleSendCoinParams
      { sampleSendCoinParams with value := .str "abc" } '1' ['0'] ['5'] rfl rfl rfl
      'a' ['b', 'c'] rfl rfl rfl (by decide) (by decide)).1,
   (sendCoin_parseInt_truncation_and_nan idLog samplePk sampleSendCoinParams
      { sampleSendCoinParams with value := .str "abc" } '1' ['0'] ['5'] rfl rfl rfl
      'a' ['b', 'c'] rfl rfl rfl (by decide) (by decide)).2,
   rfl⟩

end MetronomeWalletCore
